import Mathlib

/-
Verification of the streaming agent-session protocol consumer of
AutoGLM-GUI against its design document.

The embedding below is translated from the TypeScript sources:
  * `sendMessageStream` (the SSE client: HTTP error handling, the read
    loop with its line buffer, the `eventType` state and the dispatch of
    decoded frames to the caller's callbacks), and
  * the `handleSend` callback set in `DevicePanel.tsx` (the thinking-text
    coalescer built from `thinkingChunksBuffer`, `updateTimeoutId` and
    `flushThinkingUpdate`, plus the step/done/error/aborted handlers).

Strings are modelled as `List Char`; `JSON.parse` is modelled by an
abstract parameter `parse : List Char → Option J` (instantiated with the
concrete `jsonParse` below for concrete runs), and callback invocations
are reified as values of the `Dispatch` type in invocation order.
-/

namespace AutoGLM

/-! ## Line splitting (the read loop's `buffer.split('\n')` / `lines.pop()`) -/

/-- Splits a character stream on newline characters, returning the list of
complete lines together with the trailing partial line.  This models
`const lines = buffer.split('\n'); buffer = lines.pop() || ''` from the
read loop of `sendMessageStream`: the first component is the list of
complete lines acted upon, the second the retained incomplete tail. -/
def splitL : List Char → List (List Char) × List Char
  | [] => ([], [])
  | c :: cs =>
    if c = '\n' then ([] :: (splitL cs).1, (splitL cs).2)
    else
      match (splitL cs).1 with
      | [] => ([], c :: (splitL cs).2)
      | l :: ls => ((c :: l) :: ls, (splitL cs).2)

/-! ## Domain events and callback dispatch -/

/-- One callback invocation observed by the caller of `sendMessageStream`.
The first five constructors carry a decoded wire payload (of the abstract
JSON type `J`); `errorMsg` and `abortedMsg` are the synthesized
invocations made from the `.catch` handler with a locally constructed
`{type, role, message}` object. -/
inductive Dispatch (J : Type) where
  | thinkingChunk : J → Dispatch J
  | step : J → Dispatch J
  | done : J → Dispatch J
  | aborted : J → Dispatch J
  | error : J → Dispatch J
  | errorMsg : List Char → Dispatch J
  | abortedMsg : List Char → Dispatch J

/-- JavaScript-style trim: strip leading and trailing whitespace
(`line.slice(7).trim()`). -/
def trimChars (l : List Char) : List Char :=
  ((l.dropWhile Char.isWhitespace).reverse.dropWhile Char.isWhitespace).reverse

/-- Processing of one complete line by the read loop of
`sendMessageStream`.  `hasA` records whether the optional `onAborted`
callback was supplied; `et` is the current `eventType`.  Returns the new
`eventType` together with the callback invocations performed for this
line:
  * a line starting with `event: ` assigns `eventType = line.slice(7).trim()`;
  * a line starting with `data: ` parses `line.slice(6)` as JSON — on
    failure only a console message is produced and nothing is dispatched;
    on success exactly one callback determined by `eventType` is invoked
    (none for unrecognized event names, and none for `aborted` when
    `onAborted` was not supplied);
  * any other line is ignored. -/
def handleLine {J : Type} (hasA : Bool) (parse : List Char → Option J)
    (et : List Char) (line : List Char) : List Char × List (Dispatch J) :=
  if (("event: ").data).isPrefixOf line then
    (trimChars (line.drop 7), [])
  else if (("data: ").data).isPrefixOf line then
    match parse (line.drop 6) with
    | none => (et, [])
    | some d =>
      (et,
        if et = ("thinking_chunk").data then [Dispatch.thinkingChunk d]
        else if et = ("step").data then [Dispatch.step d]
        else if et = ("done").data then [Dispatch.done d]
        else if et = ("aborted").data then
          (if hasA then [Dispatch.aborted d] else [])
        else if et = ("error").data then [Dispatch.error d]
        else [])
  else (et, [])

/-- Runs `handleLine` over a list of complete lines, threading the
`eventType` state and concatenating the dispatched callbacks in order
(the `for (const line of lines)` loop body). -/
def runLines {J : Type} (hasA : Bool) (parse : List Char → Option J) :
    List Char → List (List Char) → List Char × List (Dispatch J)
  | et, [] => (et, [])
  | et, l :: ls =>
    ((runLines hasA parse (handleLine hasA parse et l).1 ls).1,
     (handleLine hasA parse et l).2 ++
       (runLines hasA parse (handleLine hasA parse et l).1 ls).2)

/-- The mutable state of the read loop: the pending partial line
(`buffer`) and the current event name (`eventType`). -/
structure LoopState where
  buffer : List Char
  eventType : List Char

/-- The state of the read loop just before the first read:
`let buffer = ''; let eventType = 'message'`. -/
def initState : LoopState := ⟨[], ("message").data⟩

/-- One iteration of the read loop on a freshly decoded text chunk:
append it to the pending buffer, split on newlines, retain the trailing
partial line, and act on every complete line. -/
def processChunk {J : Type} (hasA : Bool) (parse : List Char → Option J)
    (s : LoopState) (chunk : List Char) : LoopState × List (Dispatch J) :=
  (⟨(splitL (s.buffer ++ chunk)).2,
    (runLines hasA parse s.eventType (splitL (s.buffer ++ chunk)).1).1⟩,
   (runLines hasA parse s.eventType (splitL (s.buffer ++ chunk)).1).2)

/-- The whole read loop over the sequence of chunks delivered by the
reader, in order; when the reader reports `done` the loop breaks and the
remaining `buffer` is simply dropped. -/
def processChunks {J : Type} (hasA : Bool) (parse : List Char → Option J) :
    LoopState → List (List Char) → LoopState × List (Dispatch J)
  | s, [] => (s, [])
  | s, c :: cs =>
    ((processChunks hasA parse (processChunk hasA parse s c).1 cs).1,
     (processChunk hasA parse s c).2 ++
       (processChunks hasA parse (processChunk hasA parse s c).1 cs).2)

/-- The callback invocations produced by streaming a given chunk sequence
through the read loop from the initial state. -/
def wireDispatches {J : Type} (hasA : Bool) (parse : List Char → Option J)
    (chunks : List (List Char)) : List (Dispatch J) :=
  (processChunks hasA parse initState chunks).2

/-! ## A concrete JSON value model and a small `JSON.parse`

`sendMessageStream` calls the host's `JSON.parse` (for `data:` payloads)
and `response.json()` (for the body of a non-2xx response).  The generic
theorems below are stated for an arbitrary `parse` function; for concrete
runs we use `jsonParse`, an executable parser for the fragment of JSON
actually exercised (objects, arrays, strings with simple escapes,
integers, booleans, null). -/

/-- JSON values, as produced by `JSON.parse`. -/
inductive Json where
  | null : Json
  | bool : Bool → Json
  | num : Int → Json
  | str : List Char → Json
  | arr : List Json → Json
  | obj : List (List Char × Json) → Json

/-- The double-quote character. -/
def jsQuote : Char := Char.ofNat 34

/-- The backslash character. -/
def jsBackslash : Char := Char.ofNat 92

/-- The left brace character. -/
def lbrace : Char := Char.ofNat 123

/-- The right brace character. -/
def rbrace : Char := Char.ofNat 125

/-- Skip JSON whitespace. -/
def skipWs : List Char → List Char
  | [] => []
  | c :: cs => if c.isWhitespace then skipWs cs else c :: cs

/-- Parse the body of a JSON string after the opening quote, handling the
single-character escapes; returns the decoded content and the remainder
after the closing quote.  Fuel-indexed to make termination structural. -/
def parseStringBody : Nat → List Char → Option (List Char × List Char)
  | 0, _ => none
  | _, [] => none
  | fuel + 1, c :: cs =>
    if c = jsQuote then some ([], cs)
    else if c = jsBackslash then
      match cs with
      | [] => none
      | e :: cs2 =>
        let esc : Option Char :=
          if e = jsQuote then some jsQuote
          else if e = jsBackslash then some jsBackslash
          else if e = '/' then some '/'
          else if e = 'n' then some '\n'
          else if e = 't' then some '\t'
          else if e = 'r' then some '\r'
          else if e = 'b' then some (Char.ofNat 8)
          else if e = 'f' then some (Char.ofNat 12)
          else none
        match esc with
        | none => none
        | some ch =>
          match parseStringBody fuel cs2 with
          | none => none
          | some (s, rest) => some (ch :: s, rest)
    else
      match parseStringBody fuel cs with
      | none => none
      | some (s, rest) => some (c :: s, rest)

/-- Digits of a decimal literal to a natural number. -/
def digitsToNat (ds : List Char) : Nat :=
  ds.foldl (fun a c => a * 10 + (c.toNat - 48)) 0

/-- Parse an integer literal (optional minus sign, then digits). -/
def parseIntLit (cs : List Char) : Option (Int × List Char) :=
  match cs with
  | '-' :: rest =>
    match rest.span Char.isDigit with
    | ([], _) => none
    | (ds, rest2) => some (-(digitsToNat ds : Int), rest2)
  | _ =>
    match cs.span Char.isDigit with
    | ([], _) => none
    | (ds, rest2) => some ((digitsToNat ds : Int), rest2)

mutual

/-- Parse one JSON value (after skipping leading whitespace). -/
def parseVal : Nat → List Char → Option (Json × List Char)
  | 0, _ => none
  | fuel + 1, cs =>
    match skipWs cs with
    | [] => none
    | c :: rest =>
      if c = jsQuote then
        match parseStringBody fuel rest with
        | none => none
        | some (s, r) => some (Json.str s, r)
      else if c = lbrace then parseObjBody fuel rest
      else if c = '[' then parseArrBody fuel rest
      else if c = 't' then
        if (("rue").data).isPrefixOf rest then
          some (Json.bool true, rest.drop 3)
        else none
      else if c = 'f' then
        if (("alse").data).isPrefixOf rest then
          some (Json.bool false, rest.drop 4)
        else none
      else if c = 'n' then
        if (("ull").data).isPrefixOf rest then some (Json.null, rest.drop 3)
        else none
      else if c = '-' ∨ c.isDigit then
        match parseIntLit (c :: rest) with
        | none => none
        | some (n, r) => some (Json.num n, r)
      else none

/-- Parse the members of an object after the opening brace. -/
def parseObjBody : Nat → List Char → Option (Json × List Char)
  | 0, _ => none
  | fuel + 1, cs =>
    match skipWs cs with
    | [] => none
    | c :: rest =>
      if c = rbrace then some (Json.obj [], rest)
      else parseMembers fuel (c :: rest) []

/-- Parse `"key": value` members separated by commas, ending at `}`. -/
def parseMembers : Nat → List Char → List (List Char × Json) →
    Option (Json × List Char)
  | 0, _, _ => none
  | fuel + 1, cs, acc =>
    match skipWs cs with
    | [] => none
    | c :: rest =>
      if c = jsQuote then
        match parseStringBody fuel rest with
        | none => none
        | some (k, r1) =>
          match skipWs r1 with
          | ':' :: r2 =>
            match parseVal fuel r2 with
            | none => none
            | some (v, r3) =>
              match skipWs r3 with
              | ',' :: r4 => parseMembers fuel r4 (acc ++ [(k, v)])
              | c2 :: r4 =>
                if c2 = rbrace then some (Json.obj (acc ++ [(k, v)]), r4)
                else none
              | [] => none
          | _ => none
      else none

/-- Parse the elements of an array after the opening bracket. -/
def parseArrBody : Nat → List Char → Option (Json × List Char)
  | 0, _ => none
  | fuel + 1, cs =>
    match skipWs cs with
    | [] => none
    | c :: rest =>
      if c = ']' then some (Json.arr [], rest)
      else parseElems fuel (c :: rest) []

/-- Parse array elements separated by commas, ending at `]`. -/
def parseElems : Nat → List Char → List Json → Option (Json × List Char)
  | 0, _, _ => none
  | fuel + 1, cs, acc =>
    match parseVal fuel cs with
    | none => none
    | some (v, r1) =>
      match skipWs r1 with
      | ',' :: r2 => parseElems fuel r2 (acc ++ [v])
      | ']' :: r2 => some (Json.arr (acc ++ [v]), r2)
      | _ => none

end

/-- A model of `JSON.parse` on the JSON fragment used by the protocol:
parses one value and requires only whitespace to remain. -/
def jsonParse (cs : List Char) : Option Json :=
  match parseVal (2 * cs.length + 8) cs with
  | none => none
  | some (j, rest) => if skipWs rest = [] then some j else none

/-! ## The non-2xx error path of `sendMessageStream` -/

/-- JavaScript truthiness of a JSON value, as tested by
`if (errorData.detail)`. -/
def jsTruthy : Json → Bool
  | Json.null => false
  | Json.bool b => b
  | Json.num n => decide (n ≠ 0)
  | Json.str s => decide (s ≠ [])
  | Json.arr _ => true
  | Json.obj _ => true

/-- Decimal rendering of an integer, as JavaScript `String(n)`. -/
def intChars (n : Int) : List Char :=
  if n < 0 then '-' :: (Nat.repr n.natAbs).data else (Nat.repr n.natAbs).data

mutual

/-- JavaScript `String(v)` on a JSON value (the coercion performed by
`new Error(errorDetail)` when `detail` is not a string). -/
def jsToMessage : Json → List Char
  | Json.null => ("null").data
  | Json.bool true => ("true").data
  | Json.bool false => ("false").data
  | Json.num n => intChars n
  | Json.str s => s
  | Json.obj _ => ("[object Object]").data
  | Json.arr l => jsArrJoin l

/-- `Array.prototype.join(',')` as used by `String` on arrays. -/
def jsArrJoin : List Json → List Char
  | [] => []
  | [e] => jsArrElem e
  | e :: es => jsArrElem e ++ ',' :: jsArrJoin es

/-- One array element under `join`: `null` renders empty. -/
def jsArrElem : Json → List Char
  | Json.null => []
  | j => jsToMessage j

end

/-- Property lookup `errorData.detail` on a parsed JSON value: defined
only on objects (last binding wins, as with duplicate keys in JS). -/
def getDetail : Json → Option Json
  | Json.obj fs =>
    ((fs.filter (fun p => p.1 = ("detail").data)).map (fun p => p.2)).getLast?
  | _ => none

/-- The default error message: the template
`` `HTTP error! status: ${response.status}` ``. -/
def dfltMsg (status : Nat) : List Char :=
  ("HTTP error! status: ").data ++ (Nat.repr status).data

/-- The error message computed for a non-2xx response: start from the
default, then — inside a `try` — parse the body as JSON and replace the
message by `errorData.detail` if that is truthy (`body = none` models a
body that fails to parse; property access on a non-object yields nothing
truthy). -/
def errorDetail (status : Nat) (body : Option Json) : List Char :=
  match body with
  | none => dfltMsg status
  | some j =>
    match getDetail j with
    | none => dfltMsg status
    | some v => if jsTruthy v then jsToMessage v else dfltMsg status

/-! ## The session controller -/

/-- The observable shape of the HTTP response backing one session:
`ok`/`status` from the response head, `jsonBody` the result of
`response.json()` on the error path (`none` when the body is not JSON),
and `chunks` the decoded text chunks delivered by the reader on the
streaming path. -/
structure Response where
  ok : Bool
  status : Nat
  jsonBody : Option Json
  chunks : List (List Char)

/-- The `.catch` handler on a locally observed `AbortError`: dispatch
`onAborted` with the synthesized message if the caller supplied it,
otherwise nothing. -/
def abortBranch {J : Type} (hasA : Bool) : List (Dispatch J) :=
  if hasA then [Dispatch.abortedMsg (("Connection aborted by user").data)]
  else []

/-- The complete callback sequence of one session of
`sendMessageStream`.  For a non-2xx response the body's detail is
extracted and thrown, reaching the `.catch` as an ordinary `Error` and
dispatching `onError` once.  For an OK response the read loop runs over
the chunks; `abortAt = some k` means cancellation via `close()` was
observed at the k-th read (the reader rejects with `AbortError` after `k`
chunks were processed), which reaches the `.catch` and runs
`abortBranch`; `abortAt = none` means the stream ended normally. -/
def sessionRun {J : Type} (hasA : Bool) (parse : List Char → Option J)
    (r : Response) (abortAt : Option Nat) : List (Dispatch J) :=
  if r.ok then
    match abortAt with
    | none => wireDispatches hasA parse r.chunks
    | some k => wireDispatches hasA parse (r.chunks.take k) ++ abortBranch hasA
  else [Dispatch.errorMsg (errorDetail r.status r.jsonBody)]

/-! ## The update coalescer of `DevicePanel.handleSend`

`handleSend` registers the five callbacks of `sendMessageStream` over the
per-send local state `thinkingList`, `actionsList`, `currentThinkingText`,
`thinkingChunksBuffer` and `updateTimeoutId`, with `flushThinkingUpdate`
as the batched updater armed via `setTimeout(..., 50)`.  Inputs to this
component are the callback invocations plus the timer expiry (`tickEv`);
outputs are the `setMessages` updates it pushes to the UI.  The `action`
payload of a step is opaque to this logic and is modelled as `Unit`. -/

/-- The per-send mutable state captured by the closures in `handleSend`.
`timerArmed` models `updateTimeoutId !== null`. -/
structure PanelState where
  thinkingList : List (List Char)
  actionsList : List Unit
  currentThinkingText : List Char
  thinkingChunksBuffer : List (List Char)
  timerArmed : Bool
deriving DecidableEq

/-- The state at the start of `handleSend`, before any stream event. -/
def initialPanelState : PanelState := ⟨[], [], [], [], false⟩

/-- An input consumed by the `handleSend` callback set: a stream event
dispatched by `sendMessageStream`, or the expiry of the coalescing timer. -/
inductive PanelIn where
  | chunkEv : List Char → PanelIn
  | stepEv : Nat → List Char → PanelIn
  | doneEv : List Char → Nat → Bool → PanelIn
  | errorEv : List Char → PanelIn
  | abortedEv : List Char → PanelIn
  | tickEv : PanelIn
deriving DecidableEq

/-- A `setMessages` update pushed to the UI by `handleSend`.
`flushUpd added total` is the update made by `flushThinkingUpdate`
(`added` the newly joined buffer contents, `total` the resulting
`currentThinkingText`); the other constructors are the step and terminal
updates with the fields they write. -/
inductive PanelOut where
  | flushUpd : List Char → List Char → PanelOut
  | stepUpd : List (List Char) → List Unit → Nat → PanelOut
  | doneUpd : List Char → Bool → Nat → List (List Char) → PanelOut
  | errorUpd : List Char → List (List Char) → PanelOut
  | abortedUpd : List Char → List (List Char) → PanelOut
deriving DecidableEq

/-- `flushThinkingUpdate`: if the chunk buffer is non-empty, join it,
clear it, append to `currentThinkingText` and push one aggregated UI
update; in all cases the timer handle is reset to null. -/
def flushThinkingUpdate (s : PanelState) : PanelState × List PanelOut :=
  if s.thinkingChunksBuffer = [] then
    ({ s with timerArmed := false }, [])
  else
    ({ s with
        thinkingChunksBuffer := [],
        currentThinkingText :=
          s.currentThinkingText ++ s.thinkingChunksBuffer.flatten,
        timerArmed := false },
     [PanelOut.flushUpd s.thinkingChunksBuffer.flatten
        (s.currentThinkingText ++ s.thinkingChunksBuffer.flatten)])

/-- One input processed by the `handleSend` callback set:
  * a thinking chunk is pushed onto the buffer and the flush timer is
    armed if it was not already;
  * the timer expiry runs `flushThinkingUpdate`;
  * a step first forces a flush when the timer is armed, then records
    the step's thinking (preferring the backend-provided text over the
    streamed text), resets `currentThinkingText`, records the action and
    pushes the step update;
  * done/error/aborted only `clearTimeout` the pending flush — they do
    not flush and do not touch the buffered text — and push their final
    update. -/
def panelStep (s : PanelState) : PanelIn → PanelState × List PanelOut
  | PanelIn.chunkEv c =>
    ({ s with
        thinkingChunksBuffer := s.thinkingChunksBuffer ++ [c],
        timerArmed := true },
     [])
  | PanelIn.tickEv => flushThinkingUpdate s
  | PanelIn.stepEv n t =>
    let s1 := if s.timerArmed then (flushThinkingUpdate s).1 else s
    let o1 := if s.timerArmed then (flushThinkingUpdate s).2 else []
    let stepThinking := if t ≠ [] then t else s1.currentThinkingText
    let tl :=
      if stepThinking ≠ [] then s1.thinkingList ++ [stepThinking]
      else s1.thinkingList
    let al := s1.actionsList ++ [()]
    ({ s1 with
        thinkingList := tl,
        actionsList := al,
        currentThinkingText := [] },
     o1 ++ [PanelOut.stepUpd tl al n])
  | PanelIn.doneEv m k b =>
    (s, [PanelOut.doneUpd m b k s.thinkingList])
  | PanelIn.errorEv m =>
    (s, [PanelOut.errorUpd (("Error: ").data ++ m) s.thinkingList])
  | PanelIn.abortedEv m =>
    (s,
     [PanelOut.abortedUpd
        (if m ≠ [] then m else ("Chat aborted by user").data)
        s.thinkingList])

/-- The `handleSend` callback set run over a sequence of inputs,
concatenating the UI updates in order. -/
def panelRun : PanelState → List PanelIn → PanelState × List PanelOut
  | s, [] => (s, [])
  | s, i :: is =>
    ((panelRun (panelStep s i).1 is).1,
     (panelStep s i).2 ++ (panelRun (panelStep s i).1 is).2)

/-- The concatenation, in order, of the aggregated texts pushed by
`flushThinkingUpdate` in a UI-update sequence. -/
def flushedText : List PanelOut → List Char
  | [] => []
  | PanelOut.flushUpd added _ :: os => added ++ flushedText os
  | _ :: os => flushedText os

/-- The concatenation, in order, of the raw chunks in an input sequence. -/
def chunkText : List PanelIn → List Char
  | [] => []
  | PanelIn.chunkEv c :: is => c ++ chunkText is
  | _ :: is => chunkText is

/-! ## Parser lemmas: line buffering composes across chunk boundaries -/

/-- Splitting a concatenation: the complete lines of `a ++ b` are the
complete lines of `a` followed by the complete lines of `a`'s trailing
partial line prepended to `b`, and the trailing partial lines agree. -/
theorem splitL_append (a b : List Char) :
    splitL (a ++ b) =
      ((splitL a).1 ++ (splitL ((splitL a).2 ++ b)).1,
       (splitL ((splitL a).2 ++ b)).2) := by
  induction a with
  | nil => simp [splitL]
  | cons c a ih =>
    by_cases hc : c = '\n'
    · subst hc
      simp [splitL, ih]
    · simp only [List.cons_append, splitL, if_neg hc, List.append_eq]
      rw [ih]
      cases h : (splitL a).1 with
      | nil =>
        simp only [h, List.nil_append]
        cases hp : (splitL ((splitL a).2 ++ b)).1 <;>
          simp [splitL, if_neg hc, hp]
      | cons l ls => simp [h, List.cons_append]

/-- Running the line handler over a concatenation of line lists threads
the event-name state and concatenates the dispatches. -/
theorem runLines_append {J : Type} (hasA : Bool)
    (parse : List Char → Option J) (et : List Char)
    (ls1 ls2 : List (List Char)) :
    runLines hasA parse et (ls1 ++ ls2) =
      ((runLines hasA parse (runLines hasA parse et ls1).1 ls2).1,
       (runLines hasA parse et ls1).2 ++
         (runLines hasA parse (runLines hasA parse et ls1).1 ls2).2) := by
  induction ls1 generalizing et with
  | nil => simp [runLines]
  | cons l ls ih => simp [runLines, ih, List.append_assoc]

/-- Feeding two consecutive chunks to the read loop is the same as
feeding their concatenation: the partial-line buffer carries the split
over the boundary. -/
theorem processChunk_append {J : Type} (hasA : Bool)
    (parse : List Char → Option J) (s : LoopState) (a b : List Char) :
    processChunk hasA parse s (a ++ b) =
      ((processChunk hasA parse (processChunk hasA parse s a).1 b).1,
       (processChunk hasA parse s a).2 ++
         (processChunk hasA parse (processChunk hasA parse s a).1 b).2) := by
  unfold processChunk
  rw [← List.append_assoc, splitL_append (s.buffer ++ a) b, runLines_append]

/-- Chunk-list processing splits across an append of chunk lists. -/
theorem processChunks_append {J : Type} (hasA : Bool)
    (parse : List Char → Option J) (s : LoopState)
    (xs ys : List (List Char)) :
    processChunks hasA parse s (xs ++ ys) =
      ((processChunks hasA parse (processChunks hasA parse s xs).1 ys).1,
       (processChunks hasA parse s xs).2 ++
         (processChunks hasA parse (processChunks hasA parse s xs).1 ys).2) := by
  induction xs generalizing s with
  | nil => simp [processChunks]
  | cons c cs ih => simp [processChunks, ih, List.append_assoc]

/-- Chunk-boundary invariance: delivering a non-empty sequence of chunks
one by one produces exactly the state and the dispatch sequence of
delivering the whole concatenated text as a single chunk. -/
theorem processChunks_flatten {J : Type} (hasA : Bool)
    (parse : List Char → Option J) (s : LoopState)
    (cs : List (List Char)) (h : cs ≠ []) :
    processChunks hasA parse s cs = processChunk hasA parse s cs.flatten := by
  induction cs generalizing s with
  | nil => exact absurd rfl h
  | cons c cs ih =>
    cases cs with
    | nil => simp [processChunks, List.flatten]
    | cons d ds =>
      have h2 : d :: ds ≠ [] := by simp
      calc processChunks hasA parse s (c :: d :: ds)
          = ((processChunks hasA parse (processChunk hasA parse s c).1
                (d :: ds)).1,
             (processChunk hasA parse s c).2 ++
               (processChunks hasA parse (processChunk hasA parse s c).1
                 (d :: ds)).2) := by
            simp [processChunks]
        _ = processChunk hasA parse s (c :: d :: ds).flatten := by
            rw [ih _ h2]
            rw [show (c :: d :: ds).flatten = c ++ (d :: ds).flatten from rfl]
            rw [processChunk_append]

/-- Claim C4: for every frame sequence and every way of partitioning its
text into chunks (including splits in the middle of a line), the parser
reaches the same state and dispatches the same callbacks in the same
order as when the whole text is delivered in a single chunk: the
incomplete trailing line is buffered across reads and only complete
lines (split on the newline character) are acted on. -/
theorem c4_split_invariance {J : Type} (hasA : Bool)
    (parse : List Char → Option J) (s : LoopState)
    (cs : List (List Char)) (h : cs ≠ []) :
    processChunks hasA parse s cs = processChunk hasA parse s cs.flatten :=
  processChunks_flatten hasA parse s cs h

/-- Witness for C4: a `data:` line broken in the middle of its `event:`
line across two reads decodes identically to the whole text in one read. -/
theorem c4_witness :
    [("event: do").data, ("ne\ndata: \x7b\x7d\n").data] ≠ [] ∧
      processChunks true jsonParse initState
          [("event: do").data, ("ne\ndata: \x7b\x7d\n").data] =
        processChunk true jsonParse initState
          [("event: do").data, ("ne\ndata: \x7b\x7d\n").data].flatten :=
  ⟨by decide,
   c4_split_invariance true jsonParse initState
     [("event: do").data, ("ne\ndata: \x7b\x7d\n").data] (by decide)⟩

/-! ## The trailing buffer at end of stream -/

/-- A newline-free text splits into no complete line, the whole text
remaining as the partial tail. -/
theorem splitL_no_newline (cs : List Char) (h : '\n' ∉ cs) :
    splitL cs = ([], cs) := by
  induction cs with
  | nil => rfl
  | cons c cs ih =>
    have hc : ¬c = '\n' := fun hh => h (hh ▸ List.mem_cons_self c cs)
    have hcs : '\n' ∉ cs := fun hh => h (List.mem_cons_of_mem c hh)
    simp [splitL, if_neg hc, ih hcs]

/-- The partial tail retained by a split never contains a newline. -/
theorem splitL_snd_no_newline (cs : List Char) : '\n' ∉ (splitL cs).2 := by
  induction cs with
  | nil => simp [splitL]
  | cons c cs ih =>
    by_cases hc : c = '\n'
    · simp [splitL, hc, ih]
    · cases h : (splitL cs).1 with
      | nil =>
        simp only [splitL, if_neg hc, h]
        intro hm
        rcases List.mem_cons.mp hm with h1 | h1
        · exact hc h1.symm
        · exact ih h1
      | cons l ls => simp [splitL, if_neg hc, h, ih]

/-- The read loop's pending buffer never contains a newline. -/
theorem processChunks_buffer_no_newline {J : Type} (hasA : Bool)
    (parse : List Char → Option J) (s : LoopState)
    (hs : '\n' ∉ s.buffer) (cs : List (List Char)) :
    '\n' ∉ (processChunks hasA parse s cs).1.buffer := by
  induction cs generalizing s with
  | nil => exact hs
  | cons c cs ih =>
    simp only [processChunks]
    exact ih _ (splitL_snd_no_newline (s.buffer ++ c))

/-- A chunk without a newline, arriving on a newline-free buffer, only
extends the buffer and dispatches nothing. -/
theorem processChunk_no_newline {J : Type} (hasA : Bool)
    (parse : List Char → Option J) (s : LoopState) (p : List Char)
    (hs : '\n' ∉ s.buffer) (hp : '\n' ∉ p) :
    processChunk hasA parse s p = (⟨s.buffer ++ p, s.eventType⟩, []) := by
  have hb : '\n' ∉ s.buffer ++ p := by
    intro hm
    rcases List.mem_append.mp hm with h1 | h1
    · exact hs h1
    · exact hp h1
  simp [processChunk, splitL_no_newline _ hb, runLines]

/-- Claim C10: when the transport ends, buffered text not terminated by a
newline — such as a final `event:` or `data:` line missing its trailing
newline — is silently discarded: appending such a trailing fragment to
the delivered chunks produces no additional frame and no additional
callback, even if the fragment would otherwise form a complete, valid
frame. -/
theorem c10_trailing_discarded {J : Type} (hasA : Bool)
    (parse : List Char → Option J) (r : Response) (p : List Char)
    (hok : r.ok = true) (hp : '\n' ∉ p) :
    sessionRun hasA parse { r with chunks := r.chunks ++ [p] } none =
      sessionRun hasA parse r none := by
  simp only [sessionRun, hok, if_true]
  unfold wireDispatches
  rw [processChunks_append]
  simp only [processChunks]
  rw [processChunk_no_newline hasA parse _ p
    (processChunks_buffer_no_newline hasA parse initState (by simp [initState])
      r.chunks) hp]
  simp

/-- Witness for C10: a final, fully valid `data:` frame missing only its
trailing newline dispatches nothing. -/
theorem c10_witness :
    (⟨true, 200, none, [("event: done\n").data]⟩ : Response).ok = true ∧
      '\n' ∉ ("data: \x7b\x7d").data ∧
      sessionRun true jsonParse
          { (⟨true, 200, none, [("event: done\n").data]⟩ : Response) with
              chunks := [("event: done\n").data] ++ [("data: \x7b\x7d").data] }
          none =
        sessionRun true jsonParse
          (⟨true, 200, none, [("event: done\n").data]⟩ : Response) none :=
  ⟨rfl, by decide,
   c10_trailing_discarded true jsonParse
     ⟨true, 200, none, [("event: done\n").data]⟩ (("data: \x7b\x7d").data)
     rfl (by decide)⟩

/-! ## Per-line dispatch facts -/

/-- A complete `data:` line carrying the given payload. -/
def dataLine (payload : List Char) : List Char := ("data: ").data ++ payload

/-- A `data:` line whose payload fails to parse changes nothing and
dispatches nothing. -/
theorem handleLine_dataLine_none {J : Type} (hasA : Bool)
    (parse : List Char → Option J) (et payload : List Char)
    (h : parse payload = none) :
    handleLine hasA parse et (dataLine payload) = (et, []) := by
  have h1 : ((("event: ").data).isPrefixOf (dataLine payload)) = false := rfl
  have h2 : ((("data: ").data).isPrefixOf (dataLine payload)) = true := by
    rw [List.isPrefixOf_iff_prefix]
    exact List.prefix_append _ _
  have h3 : (dataLine payload).drop 6 = payload := rfl
  simp [handleLine, h1, h2, h3, h]

/-- Claim C5: a `data:` line whose payload is not valid JSON is dropped
without dispatching any event and without terminating the session: the
run over any surrounding lines, state included, is exactly the run with
the malformed line removed. -/
theorem c5_malformed_frame_dropped {J : Type} (hasA : Bool)
    (parse : List Char → Option J) (payload : List Char)
    (h : parse payload = none) (et : List Char)
    (pre post : List (List Char)) :
    runLines hasA parse et (pre ++ dataLine payload :: post) =
      runLines hasA parse et (pre ++ post) := by
  induction pre generalizing et with
  | nil =>
    simp [runLines, handleLine_dataLine_none hasA parse et payload h]
  | cons l ls ih => simp [runLines, ih]

/-- Witness for C5: a malformed payload between an `event:` line and a
valid frame leaves the surrounding decode unchanged. -/
theorem c5_witness :
    jsonParse (("\x7bbad").data) = none ∧
      runLines true jsonParse (("message").data)
          ([("event: done").data] ++
            dataLine (("\x7bbad").data) :: [("data: \x7b\x7d").data]) =
        runLines true jsonParse (("message").data)
          ([("event: done").data] ++ [("data: \x7b\x7d").data]) :=
  ⟨rfl,
   c5_malformed_frame_dropped true jsonParse (("\x7bbad").data) rfl
     (("message").data) [("event: done").data] [("data: \x7b\x7d").data]⟩

/-- The dispatch mapping as the specification words it: the callback
invoked for a decoded `data:` payload is determined solely by the current
event name — `thinking_chunk`, `step`, `done`, `aborted` and `error` map
to their callbacks, and any other name (including the default `message`)
maps to no callback at all. -/
def specDispatchOf {J : Type} (et : List Char) (d : J) : List (Dispatch J) :=
  if et = ("thinking_chunk").data then [Dispatch.thinkingChunk d]
  else if et = ("step").data then [Dispatch.step d]
  else if et = ("done").data then [Dispatch.done d]
  else if et = ("aborted").data then [Dispatch.aborted d]
  else if et = ("error").data then [Dispatch.error d]
  else []

/-- The specification's line discipline: an `event:` line replaces the
current event name, a `data:` line dispatches via `specDispatchOf` under
the current event name and leaves the name unchanged (so a name once set
carries forward), and any other line is ignored. -/
def specHandleLine {J : Type} (parse : List Char → Option J)
    (et line : List Char) : List Char × List (Dispatch J) :=
  if (("event: ").data).isPrefixOf line then (trimChars (line.drop 7), [])
  else if (("data: ").data).isPrefixOf line then
    match parse (line.drop 6) with
    | none => (et, [])
    | some d => (et, specDispatchOf et d)
  else (et, [])

/-- Claim C8: with all callbacks supplied, each complete line is handled
exactly as the specification's event-name discipline prescribes — the
callback for a `data:` line is a function of the current event name
alone, with unknown names (and the default `message`) dispatching
nothing, and the event name persisting across `data:` lines until the
next `event:` line — and the initial event name is `message`. -/
theorem c8_dispatch_by_event_name {J : Type}
    (parse : List Char → Option J) :
    (∀ et line : List Char,
        handleLine true parse et line = specHandleLine parse et line) ∧
      initState.eventType = ("message").data := by
  constructor
  · intro et line
    rfl
  · rfl

/-- Claim C9: when the caller omits the optional `onAborted` callback,
a server-sent `aborted` frame dispatches no callback at all (the event
name is consumed, nothing is invoked), and a locally observed
cancellation likewise appends no callback: the session's dispatches are
exactly those of the processed chunk prefix. -/
theorem c9_onAborted_omitted {J : Type} (parse : List Char → Option J)
    (payload : List Char) (d : J) (h : parse payload = some d) :
    handleLine false parse (("aborted").data) (dataLine payload) =
        ((("aborted").data), ([] : List (Dispatch J))) ∧
      abortBranch (J := J) false = [] ∧
      ∀ (r : Response) (k : Nat),
        sessionRun false parse r (some k) =
          sessionRun false parse ⟨r.ok, r.status, r.jsonBody, r.chunks.take k⟩
            none := by
  refine ⟨?_, rfl, ?_⟩
  · have h1 : ((("event: ").data).isPrefixOf (dataLine payload)) = false := rfl
    have h2 : ((("data: ").data).isPrefixOf (dataLine payload)) = true := by
      rw [List.isPrefixOf_iff_prefix]
      exact List.prefix_append _ _
    have h3 : (dataLine payload).drop 6 = payload := rfl
    simp only [handleLine, h1, h2, h3, h, Bool.false_eq_true, if_false,
      if_true]
    rw [if_neg (by decide), if_neg (by decide), if_neg (by decide)]
  · intro r k
    by_cases hok : r.ok
    · simp [sessionRun, hok, abortBranch]
    · simp [sessionRun, hok]

/-- Witness for C9: with `onAborted` omitted, an `aborted` frame with a
well-formed payload invokes nothing, and local cancellation at the first
read appends nothing. -/
theorem c9_witness :
    jsonParse (("\x7b\x7d").data) = some (Json.obj []) ∧
      (handleLine false jsonParse (("aborted").data)
            (dataLine (("\x7b\x7d").data)) =
          ((("aborted").data), ([] : List (Dispatch Json))) ∧
        abortBranch (J := Json) false = [] ∧
        ∀ (r : Response) (k : Nat),
          sessionRun false jsonParse r (some k) =
            sessionRun false jsonParse
              ⟨r.ok, r.status, r.jsonBody, r.chunks.take k⟩ none) :=
  ⟨rfl,
   c9_onAborted_omitted jsonParse (("\x7b\x7d").data) (Json.obj []) rfl⟩

/-! ## Terminal events and the synthesized dispatches -/

/-- A terminal callback invocation: `onDone`, `onError` or `onAborted`,
whether carrying a wire payload or a synthesized message. -/
def isTerminalD {J : Type} : Dispatch J → Bool
  | Dispatch.done _ => true
  | Dispatch.error _ => true
  | Dispatch.aborted _ => true
  | Dispatch.errorMsg _ => true
  | Dispatch.abortedMsg _ => true
  | _ => false

/-- The number of terminal callback invocations in a dispatch sequence. -/
def terminalCount {J : Type} (l : List (Dispatch J)) : Nat :=
  l.countP isTerminalD

/-- Terminal invocations occur only in the last position: whenever the
i-th dispatched callback is terminal, it is the final one. -/
def terminalLastOnly {J : Type} (l : List (Dispatch J)) : Prop :=
  ∀ i (h : i < l.length), isTerminalD (l.get ⟨i, h⟩) = true → i + 1 = l.length

/-- A dispatch synthesized locally in the `.catch` handler (as opposed to
one decoded from a wire frame). -/
def isSynthD {J : Type} : Dispatch J → Bool
  | Dispatch.errorMsg _ => true
  | Dispatch.abortedMsg _ => true
  | _ => false

/-- `handleLine` only ever dispatches wire-decoded events, never the
synthesized `.catch` variants. -/
theorem handleLine_no_synth {J : Type} (hasA : Bool)
    (parse : List Char → Option J) (et line : List Char) :
    ∀ d ∈ (handleLine hasA parse et line).2, isSynthD d = false := by
  intro d hd
  unfold handleLine at hd
  by_cases he : ((("event: ").data).isPrefixOf line) = true
  · simp [he] at hd
  · simp only [he, Bool.false_eq_true, if_false] at hd
    by_cases hda : ((("data: ").data).isPrefixOf line) = true
    · simp only [hda, if_true] at hd
      cases hp : parse (line.drop 6) with
      | none => simp [hp] at hd
      | some v =>
        simp only [hp] at hd
        split at hd
        · simp_all [isSynthD]
        · split at hd
          · simp_all [isSynthD]
          · split at hd
            · simp_all [isSynthD]
            · split at hd
              · split at hd <;> simp_all [isSynthD]
              · split at hd
                · simp_all [isSynthD]
                · simp_all
    · simp [hda] at hd

/-- The read loop dispatches only wire-decoded events. -/
theorem runLines_no_synth {J : Type} (hasA : Bool)
    (parse : List Char → Option J) (et : List Char) (ls : List (List Char)) :
    ∀ d ∈ (runLines hasA parse et ls).2, isSynthD d = false := by
  induction ls generalizing et with
  | nil => simp [runLines]
  | cons l ls ih =>
    intro d hd
    simp only [runLines, List.mem_append] at hd
    rcases hd with hd | hd
    · exact handleLine_no_synth hasA parse et l d hd
    · exact ih _ d hd

/-- The whole streaming path dispatches only wire-decoded events. -/
theorem processChunks_no_synth {J : Type} (hasA : Bool)
    (parse : List Char → Option J) (s : LoopState) (cs : List (List Char)) :
    ∀ d ∈ (processChunks hasA parse s cs).2, isSynthD d = false := by
  induction cs generalizing s with
  | nil => simp [processChunks]
  | cons c cs ih =>
    intro d hd
    simp only [processChunks, List.mem_append] at hd
    rcases hd with hd | hd
    · exact runLines_no_synth hasA parse s.eventType _ d hd
    · exact ih _ d hd

/-- The synthesized local-abort dispatch, with its exact message. -/
def isLocalAborted {J : Type} : Dispatch J → Bool
  | Dispatch.abortedMsg m => m == ("Connection aborted by user").data
  | _ => false

/-- The synthesized local-error dispatch. -/
def isLocalError {J : Type} : Dispatch J → Bool
  | Dispatch.errorMsg _ => true
  | _ => false

/-- Claim C7: when `close()` is invoked and the abort is observed locally
(the reader rejects with `AbortError` after `k` processed chunks), the
session dispatches exactly one synthesized `Aborted` with message
`Connection aborted by user` and never a synthesized `Error`; in
particular aborting before any frame arrived yields the single `Aborted`
dispatch and no other event at all. -/
theorem c7_local_abort {J : Type} (parse : List Char → Option J)
    (r : Response) (hok : r.ok = true) (k : Nat) :
    (sessionRun true parse r (some k)).countP isLocalAborted = 1 ∧
      (sessionRun true parse r (some k)).countP isLocalError = 0 ∧
      sessionRun true parse r (some 0) =
        [Dispatch.abortedMsg (("Connection aborted by user").data)] := by
  have hwire : ∀ m : Nat,
      ∀ d ∈ wireDispatches true parse (r.chunks.take m), isSynthD d = false :=
    fun m => processChunks_no_synth true parse initState (r.chunks.take m)
  have hA : ∀ m : Nat,
      (wireDispatches true parse (r.chunks.take m)).countP isLocalAborted
        = 0 := by
    intro m
    rw [List.countP_eq_zero]
    intro d hd
    have := hwire m d hd
    cases d <;> simp_all [isSynthD, isLocalAborted]
  have hE : ∀ m : Nat,
      (wireDispatches true parse (r.chunks.take m)).countP isLocalError
        = 0 := by
    intro m
    rw [List.countP_eq_zero]
    intro d hd
    have := hwire m d hd
    cases d <;> simp_all [isSynthD, isLocalError]
  refine ⟨?_, ?_, ?_⟩
  · simp [sessionRun, hok, abortBranch, List.countP_append, hA k,
      isLocalAborted]
  · simp [sessionRun, hok, abortBranch, List.countP_append, hE k,
      isLocalError]
  · simp [sessionRun, hok, abortBranch, wireDispatches, processChunks]

/-- Witness for C7: aborting a session with an OK response before any
frame arrives dispatches the single synthesized `Aborted` and nothing
else. -/
theorem c7_witness :
    (⟨true, 200, none,
        [("event: done\ndata: \x7b\x7d\n").data]⟩ : Response).ok = true ∧
      ((sessionRun true jsonParse
            (⟨true, 200, none, [("event: done\ndata: \x7b\x7d\n").data]⟩ :
              Response) (some 0)).countP isLocalAborted = 1 ∧
        (sessionRun true jsonParse
            (⟨true, 200, none, [("event: done\ndata: \x7b\x7d\n").data]⟩ :
              Response) (some 0)).countP isLocalError = 0 ∧
        sessionRun true jsonParse
            (⟨true, 200, none, [("event: done\ndata: \x7b\x7d\n").data]⟩ :
              Response) (some 0) =
          [Dispatch.abortedMsg (("Connection aborted by user").data)]) :=
  ⟨rfl,
   c7_local_abort jsonParse
     ⟨true, 200, none, [("event: done\ndata: \x7b\x7d\n").data]⟩ rfl 0⟩

/-- Counterexample to claim C1 as stated: `sendMessageStream` has no
terminated guard, so a frame sequence containing two `done` frames
dispatches two terminal callbacks — an event is dispatched after a
terminal event, and more than one terminal event reaches the caller. -/
theorem c1_counterexample :
    terminalCount (sessionRun true jsonParse
        ⟨true, 200, none,
          [("event: done\ndata: \x7b\x7d\nevent: done\ndata: \x7b\x7d\n").data]⟩
        none) = 2 := by
  rfl

/-- Claim C1, amended: the code dispatches one terminal callback per
decoded terminal frame (plus one synthesized `Aborted` on a locally
observed cancellation) with no suppression after the first; therefore
at most one terminal event is dispatched, and it is the last callback
invoked, exactly under the conditions that (i) when the stream ends
without local cancellation, the wire frames decode to at most one
terminal dispatch, occurring only in the final position, and (ii) when
cancellation is observed locally, the processed prefix decoded to no
terminal dispatch at all. -/
theorem c1_amended {J : Type} (hasA : Bool) (parse : List Char → Option J)
    (r : Response) (abortAt : Option Nat)
    (hW : abortAt = none →
      terminalCount (wireDispatches hasA parse r.chunks) ≤ 1 ∧
        terminalLastOnly (wireDispatches hasA parse r.chunks))
    (hA : ∀ k, abortAt = some k →
      terminalCount (wireDispatches hasA parse (r.chunks.take k)) = 0) :
    terminalCount (sessionRun hasA parse r abortAt) ≤ 1 ∧
      terminalLastOnly (sessionRun hasA parse r abortAt) := by
  by_cases hok : r.ok
  · cases abortAt with
    | none => simpa [sessionRun, hok] using hW rfl
    | some k =>
      have h0 : (wireDispatches hasA parse (r.chunks.take k)).countP
          isTerminalD = 0 := hA k rfl
      have hnt : ∀ d ∈ wireDispatches hasA parse (r.chunks.take k),
          isTerminalD d = false := by
        intro d hd
        have := List.countP_eq_zero.mp h0 d hd
        simpa using this
      have hrun : sessionRun hasA parse r (some k) =
          wireDispatches hasA parse (r.chunks.take k) ++ abortBranch hasA := by
        simp [sessionRun, hok]
      constructor
      · rw [hrun, terminalCount, List.countP_append, h0]
        cases hasA
        · simp [abortBranch]
        · simp [abortBranch, isTerminalD]
      · rw [hrun]
        intro i hi ht
        rw [List.get_eq_getElem] at ht
        by_cases hiw : i < (wireDispatches hasA parse (r.chunks.take k)).length
        · rw [List.getElem_append_left hiw] at ht
          have hmem := List.getElem_mem hiw
          rw [hnt _ hmem] at ht
          exact absurd ht (by simp)
        · have hlen : (abortBranch (J := J) hasA).length ≤ 1 := by
            cases hasA <;> simp [abortBranch]
          rw [List.length_append] at hi ⊢
          omega
  · constructor
    · simp [sessionRun, hok, terminalCount, isTerminalD]
    · intro i hi ht
      simp only [sessionRun, hok, if_false, Bool.false_eq_true,
        List.length_cons, List.length_nil] at hi ⊢
      omega

/-- Witness for C1 (amended): a stream carrying exactly one terminal
frame, as its last frame, with no local cancellation, dispatches at most
one terminal callback and it comes last. -/
theorem c1_witness :
    terminalCount (sessionRun true jsonParse
        ⟨true, 200, none,
          [("event: step\ndata: \x7b\x7d\nevent: done\ndata: \x7b\x7d\n").data]⟩
        none) ≤ 1 ∧
      terminalLastOnly (sessionRun true jsonParse
        ⟨true, 200, none,
          [("event: step\ndata: \x7b\x7d\nevent: done\ndata: \x7b\x7d\n").data]⟩
        none) :=
  c1_amended true jsonParse
    ⟨true, 200, none,
      [("event: step\ndata: \x7b\x7d\nevent: done\ndata: \x7b\x7d\n").data]⟩
    none
    (fun _ => ⟨by decide, by unfold terminalLastOnly; decide⟩)
    (fun k hk => Option.noConfusion hk)

/-! ## Coalescer conservation -/

/-- `flushedText` distributes over concatenation of update sequences. -/
theorem flushedText_append (a b : List PanelOut) :
    flushedText (a ++ b) = flushedText a ++ flushedText b := by
  induction a with
  | nil => simp [flushedText]
  | cons o os ih => cases o <;> simp [flushedText, ih]

/-- Conservation of buffered thinking text, from any state: the text
flushed to the UI during a trace, followed by what remains buffered at
its end, is exactly the initially buffered text followed by the raw
chunks received. -/
theorem panel_flush_invariant (ins : List PanelIn) :
    ∀ s : PanelState,
      flushedText (panelRun s ins).2 ++
          (panelRun s ins).1.thinkingChunksBuffer.flatten =
        s.thinkingChunksBuffer.flatten ++ chunkText ins := by
  induction ins with
  | nil => intro s; simp [panelRun, flushedText, chunkText]
  | cons i is ih =>
    intro s
    cases i with
    | chunkEv c =>
      simp [panelRun, panelStep, flushedText_append, flushedText, chunkText,
        List.append_assoc, ih]
    | tickEv =>
      by_cases hbuf : s.thinkingChunksBuffer = [] <;>
        simp [panelRun, panelStep, flushThinkingUpdate, hbuf,
          flushedText_append, flushedText, chunkText, List.append_assoc, ih]
    | stepEv n t =>
      by_cases harm : s.timerArmed <;>
        by_cases hbuf : s.thinkingChunksBuffer = [] <;>
          simp [panelRun, panelStep, flushThinkingUpdate, harm, hbuf,
            flushedText_append, flushedText, chunkText, List.append_assoc, ih]
    | doneEv m k b =>
      simp [panelRun, panelStep, flushedText_append, flushedText, chunkText,
        ih]
    | errorEv m =>
      simp [panelRun, panelStep, flushedText_append, flushedText, chunkText,
        ih]
    | abortedEv m =>
      simp [panelRun, panelStep, flushedText_append, flushedText, chunkText,
        ih]

/-- Counterexample to claim C2 as stated: a chunk that is still buffered
when `done` arrives is discarded, not dispatched — the terminal handlers
clear the pending flush without flushing — so the concatenation of the
dispatched coalesced updates differs from the concatenation of the raw
chunks. -/
theorem c2_counterexample :
    flushedText (panelRun initialPanelState
        [PanelIn.chunkEv (("Hi").data), PanelIn.doneEv [] 0 true]).2 ≠
      chunkText [PanelIn.chunkEv (("Hi").data), PanelIn.doneEv [] 0 true] :=
  by decide

/-- Claim C2, amended: the coalescer neither drops nor reorders text up
to the fragments still buffered when the trace ends — the concatenation
of all coalesced updates dispatched to the consumer, followed by the
text still buffered at the end, equals the concatenation of the raw
chunks in arrival order.  Fragments still buffered when a terminal event
arrives remain in the buffer and are not dispatched, since the terminal
handlers cancel the pending flush without flushing. -/
theorem c2_amended (ins : List PanelIn) :
    flushedText (panelRun initialPanelState ins).2 ++
        (panelRun initialPanelState ins).1.thinkingChunksBuffer.flatten =
      chunkText ins := by
  rw [panel_flush_invariant ins initialPanelState]
  simp [initialPanelState]

/-- Counterexample to claim C3 as stated: two chunks within the
coalescing window followed by `done` yield only the done update — the
aggregated `Hello` update is never observed, because the done handler
cancels the armed flush timer without flushing. -/
theorem c3_counterexample :
    (panelRun initialPanelState
        [PanelIn.chunkEv (("He").data), PanelIn.chunkEv (("llo").data),
          PanelIn.doneEv (("ok").data) 1 true]).2 =
        [PanelOut.doneUpd (("ok").data) true 1 []] ∧
      PanelOut.flushUpd (("Hello").data) (("Hello").data) ∉
        (panelRun initialPanelState
          [PanelIn.chunkEv (("He").data), PanelIn.chunkEv (("llo").data),
            PanelIn.doneEv (("ok").data) 1 true]).2 := by
  constructor
  · decide
  · decide

/-- Claim C3, amended: while the flush timer is armed with buffered text,
a `step` event forces a synchronous flush of the buffered text before the
step is processed (the flush update precedes the step update); the
terminal events `done`, `error` and `aborted`, however, cancel the
pending flush without flushing — they emit only their own final update
and the buffered text is discarded. -/
theorem c3_amended (s : PanelState) (hArmed : s.timerArmed = true)
    (hBuf : s.thinkingChunksBuffer ≠ []) :
    (∀ n t, (panelStep s (PanelIn.stepEv n t)).2 =
        PanelOut.flushUpd s.thinkingChunksBuffer.flatten
            (s.currentThinkingText ++ s.thinkingChunksBuffer.flatten) ::
          (panelStep (flushThinkingUpdate s).1 (PanelIn.stepEv n t)).2) ∧
      (∀ m k b, (panelStep s (PanelIn.doneEv m k b)).2 =
        [PanelOut.doneUpd m b k s.thinkingList]) ∧
      (∀ m, (panelStep s (PanelIn.errorEv m)).2 =
        [PanelOut.errorUpd (("Error: ").data ++ m) s.thinkingList]) ∧
      (∀ m, (panelStep s (PanelIn.abortedEv m)).2 =
        [PanelOut.abortedUpd
          (if m ≠ [] then m else ("Chat aborted by user").data)
          s.thinkingList]) := by
  refine ⟨?_, fun m k b => rfl, fun m => rfl, fun m => rfl⟩
  intro n t
  simp [panelStep, flushThinkingUpdate, hArmed, if_neg hBuf]

/-- Witness for C3 (amended): after two buffered chunks armed the timer,
a `done` event emits only the done update. -/
theorem c3_witness :
    (panelStep
        (panelRun initialPanelState
          [PanelIn.chunkEv (("He").data),
            PanelIn.chunkEv (("llo").data)]).1
        (PanelIn.doneEv (("ok").data) 1 true)).2 =
      [PanelOut.doneUpd (("ok").data) true 1
        (panelRun initialPanelState
          [PanelIn.chunkEv (("He").data),
            PanelIn.chunkEv (("llo").data)]).1.thinkingList] :=
  (c3_amended _ (by decide) (by decide)).2.1 (("ok").data) 1 true

/-! ## The non-2xx error path -/

/-- Counterexample to claim C6 as stated: a 500 response whose body
parses as JSON and contains the string detail `""` does not yield
`Error{message: ""}` — the code tests `if (errorData.detail)`, and the
empty string is falsy, so the default message is dispatched instead. -/
theorem c6_counterexample :
    sessionRun true jsonParse
        ⟨false, 500, jsonParse (("\x7b\"detail\":\"\"\x7d").data), []⟩ none =
        [Dispatch.errorMsg (("HTTP error! status: 500").data)] ∧
      ("HTTP error! status: 500").data ≠ ([] : List Char) :=
  ⟨rfl, by decide⟩

/-- Claim C6, amended: a non-2xx response dispatches exactly one `Error`
and no other event; its message is the body's JSON `detail` field when
that is a non-empty string (truthy), and the default
`HTTP error! status: <code>` when the body does not parse as JSON or has
no `detail` property. -/
theorem c6_amended {J : Type} (hasA : Bool) (parse : List Char → Option J)
    (status : Nat) (chunks : List (List Char)) (abortAt : Option Nat) :
    (∀ (fs : List (List Char × Json)) (s : List Char),
        getDetail (Json.obj fs) = some (Json.str s) → s ≠ [] →
          sessionRun hasA parse ⟨false, status, some (Json.obj fs), chunks⟩
              abortAt =
            [Dispatch.errorMsg s]) ∧
      (sessionRun hasA parse ⟨false, status, none, chunks⟩ abortAt =
        [Dispatch.errorMsg (dfltMsg status)]) ∧
      (∀ j : Json, getDetail j = none →
        sessionRun hasA parse ⟨false, status, some j, chunks⟩ abortAt =
          [Dispatch.errorMsg (dfltMsg status)]) := by
  refine ⟨?_, ?_, ?_⟩
  · intro fs s h hs
    simp [sessionRun, errorDetail, h, jsTruthy, hs, jsToMessage]
  · simp [sessionRun, errorDetail]
  · intro j h
    simp [sessionRun, errorDetail, h]

/-- Witness for C6 (amended): status 500 with body
`{"detail":"agent busy"}` dispatches the single `Error{message:"agent
busy"}`. -/
theorem c6_witness :
    sessionRun true jsonParse
        ⟨false, 500,
          some (Json.obj [((("detail").data), Json.str (("agent busy").data))]),
          []⟩ none =
      [Dispatch.errorMsg (("agent busy").data)] :=
  (c6_amended true jsonParse 500 [] none).1
    [((("detail").data), Json.str (("agent busy").data))]
    (("agent busy").data) rfl (by decide)

end AutoGLM
